import Mathlib

/-!
Verification of the KAN-TTS loss library (`kantts/train/loss.py`) and model
factory (`kantts/models/__init__.py`) against their natural-language
specification.  Tensors are embedded as shapes together with total value
functions over rational numbers; framework primitives that the repository
only calls (`torch.log`, `torch.sqrt` inside the Frobenius norm, the external
STFT kernel) appear as explicit function parameters, so every statement holds
for the actual framework instantiation as well.  Fallible Python code
(assertions, `KeyError`, `NameError`, `NotImplementedError`) is rendered with
`Option`/`Except`.
-/

namespace KanTTS

/-- A rank-2 tensor of shape `(d0, d1)`: a value function over indices. -/
structure Tensor2 where
  d0 : ℕ
  d1 : ℕ
  val : ℕ → ℕ → ℚ

/-- A rank-3 tensor of shape `(d0, d1, d2)`. -/
structure Tensor3 where
  d0 : ℕ
  d1 : ℕ
  d2 : ℕ
  val : ℕ → ℕ → ℕ → ℚ

/-- Modelled from the spec: `get_mask_from_lengths` is imported from
`kantts.models.utils`, which is not part of the sources at hand.  Per the
spec's description of the "masked reconstruction losses" ("only frames before
the given length contribute"), it is the padding mask of a batch of lengths:
entry `(b, t)` is `true` exactly when frame `t` lies at or beyond
`lengths[b]`, i.e. outside the valid region.  The loss code negates it before
use. -/
def get_mask_from_lengths (lengths : List ℕ) (b t : ℕ) : Bool :=
  lengths.getD b 0 ≤ t

/-- The elementwise criterion selected by `MelReconLoss.__init__` /
`ProsodyReconLoss.__init__`: `torch.nn.L1Loss(reduction="none")` for
`"mae"` and `torch.nn.MSELoss(reduction="none")` for `"mse"`. -/
def criterionOf (loss_type : String) (a b : ℚ) : ℚ :=
  if loss_type = "mae" then |a - b| else (a - b) ^ 2

/-- Number of `true` entries of the negated mask of shape
`(lengths.length, maxLen)`: `valid_outputs` / `valid_inputs` in the code. -/
def validCount (lengths : List ℕ) (maxLen : ℕ) : ℕ :=
  ∑ b ∈ Finset.range lengths.length, ∑ t ∈ Finset.range maxLen,
    if !get_mask_from_lengths lengths b t then 1 else 0

/-- Value of `torch.sum(criterion(mel_targets, pred) * output_masks.unsqueeze(-1))`:
the elementwise loss against `tgt`, zeroed at padded frames, summed over the
target's index ranges. -/
def melMaskedSum (loss_type : String) (lengths : List ℕ) (tgt pred : Tensor3) : ℚ :=
  ∑ b ∈ Finset.range tgt.d0, ∑ t ∈ Finset.range tgt.d1, ∑ m ∈ Finset.range tgt.d2,
    criterionOf loss_type (tgt.val b t m) (pred.val b t m) *
      (if !get_mask_from_lengths lengths b t then 1 else 0)

/-- Embedding of `MelReconLoss.forward`.  `max_len` is `mel_targets.size(1)`,
the denominator is `valid_outputs * mel_targets.size(-1)`, and when
`postnet_outputs is None` the second component is the Python float `0.0`. -/
def MelReconLoss.forward (loss_type : String) (output_lengths : List ℕ)
    (mel_targets dec_outputs : Tensor3) (postnet_outputs : Option Tensor3) : ℚ × ℚ :=
  let denom : ℚ := (validCount output_lengths mel_targets.d1 : ℚ) * (mel_targets.d2 : ℚ)
  (melMaskedSum loss_type output_lengths mel_targets dec_outputs / denom,
   match postnet_outputs with
   | some p => melMaskedSum loss_type output_lengths mel_targets p / denom
   | none => 0)

/-- Value of `torch.sum(criterion(target-expression, prediction) * input_masks)`
for a rank-2 target of shape `(d0, d1)`, given the target and prediction value
functions. -/
def prosodyMaskedSum (loss_type : String) (lengths : List ℕ) (d0 d1 : ℕ)
    (tval pval : ℕ → ℕ → ℚ) : ℚ :=
  ∑ b ∈ Finset.range d0, ∑ t ∈ Finset.range d1,
    criterionOf loss_type (tval b t) (pval b t) *
      (if !get_mask_from_lengths lengths b t then 1 else 0)

/-- Embedding of `ProsodyReconLoss.forward`.  `logf` stands for `torch.log`;
the duration targets are compared as `log(duration_targets.float() + 1)`
against `log_duration_predictions`. -/
def ProsodyReconLoss.forward (loss_type : String) (logf : ℚ → ℚ)
    (input_lengths : List ℕ)
    (duration_targets pitch_targets energy_targets : Tensor2)
    (log_duration_predictions pitch_predictions energy_predictions : Tensor2) :
    ℚ × ℚ × ℚ :=
  let valid_inputs : ℚ := (validCount input_lengths duration_targets.d1 : ℚ)
  (prosodyMaskedSum loss_type input_lengths duration_targets.d0 duration_targets.d1
      (fun b t => logf (duration_targets.val b t + 1)) log_duration_predictions.val
    / valid_inputs,
   prosodyMaskedSum loss_type input_lengths pitch_targets.d0 pitch_targets.d1
      pitch_targets.val pitch_predictions.val / valid_inputs,
   prosodyMaskedSum loss_type input_lengths energy_targets.d0 energy_targets.d1
      energy_targets.val energy_predictions.val / valid_inputs)

lemma melMaskedSum_congr (loss_type : String) (lengths : List ℕ) (tgt p p' : Tensor3)
    (h : ∀ b t m, t < lengths.getD b 0 → p.val b t m = p'.val b t m) :
    melMaskedSum loss_type lengths tgt p = melMaskedSum loss_type lengths tgt p' := by
  unfold melMaskedSum
  refine Finset.sum_congr rfl fun b _ => Finset.sum_congr rfl fun t _ =>
    Finset.sum_congr rfl fun m _ => ?_
  by_cases hm : get_mask_from_lengths lengths b t
  · simp [hm]
  · have ht : t < lengths.getD b 0 := by
      simpa [get_mask_from_lengths, Nat.not_le] using hm
    rw [h b t m ht]

lemma prosodyMaskedSum_congr (loss_type : String) (lengths : List ℕ) (d0 d1 : ℕ)
    (tval : ℕ → ℕ → ℚ) (pval pval' : ℕ → ℕ → ℚ)
    (h : ∀ b t, t < lengths.getD b 0 → pval b t = pval' b t) :
    prosodyMaskedSum loss_type lengths d0 d1 tval pval =
      prosodyMaskedSum loss_type lengths d0 d1 tval pval' := by
  unfold prosodyMaskedSum
  refine Finset.sum_congr rfl fun b _ => Finset.sum_congr rfl fun t _ => ?_
  by_cases hm : get_mask_from_lengths lengths b t
  · simp [hm]
  · have ht : t < lengths.getD b 0 := by
      simpa [get_mask_from_lengths, Nat.not_le] using hm
    rw [h b t ht]

/-- C1: the reconstruction losses are masked.  Whenever two prediction tensors
agree on every frame strictly before the corresponding batch element's length,
`MelReconLoss.forward` (for `dec_outputs` and for `postnet_outputs`) and
`ProsodyReconLoss.forward` (for the three prediction tensors) return
identical values: changing predictions at any frame `t ≥ length[b]` cannot
change any returned value, so only frames before the given length contribute. -/
theorem C1_masked_reconstruction_losses :
    (∀ (lt : String) (lens : List ℕ) (tgt dec dec' : Tensor3) (post : Option Tensor3),
       (∀ b t m, t < lens.getD b 0 → dec.val b t m = dec'.val b t m) →
       MelReconLoss.forward lt lens tgt dec post = MelReconLoss.forward lt lens tgt dec' post)
  ∧ (∀ (lt : String) (lens : List ℕ) (tgt dec : Tensor3) (post post' : Tensor3),
       (∀ b t m, t < lens.getD b 0 → post.val b t m = post'.val b t m) →
       MelReconLoss.forward lt lens tgt dec (some post) =
         MelReconLoss.forward lt lens tgt dec (some post'))
  ∧ (∀ (lt : String) (logf : ℚ → ℚ) (lens : List ℕ)
       (dt pt et ldp ldp' pp pp' ep ep' : Tensor2),
       (∀ b t, t < lens.getD b 0 → ldp.val b t = ldp'.val b t) →
       (∀ b t, t < lens.getD b 0 → pp.val b t = pp'.val b t) →
       (∀ b t, t < lens.getD b 0 → ep.val b t = ep'.val b t) →
       ProsodyReconLoss.forward lt logf lens dt pt et ldp pp ep =
         ProsodyReconLoss.forward lt logf lens dt pt et ldp' pp' ep') := by
  refine ⟨?_, ?_, ?_⟩
  · intro lt lens tgt dec dec' post h
    unfold MelReconLoss.forward
    rw [melMaskedSum_congr lt lens tgt dec dec' h]
  · intro lt lens tgt dec post post' h
    simp only [MelReconLoss.forward]
    rw [melMaskedSum_congr lt lens tgt post post' h]
  · intro lt logf lens dt pt et ldp ldp' pp pp' ep ep' h1 h2 h3
    unfold ProsodyReconLoss.forward
    rw [prosodyMaskedSum_congr lt lens dt.d0 dt.d1 _ ldp.val ldp'.val h1,
        prosodyMaskedSum_congr lt lens pt.d0 pt.d1 _ pp.val pp'.val h2,
        prosodyMaskedSum_congr lt lens et.d0 et.d1 _ ep.val ep'.val h3]

/-- Concrete decoder predictions for the masking witness. -/
def decW : Tensor3 := ⟨1, 2, 1, fun _ _ _ => 0⟩

/-- A variant of `decW` that differs only at padded frames `t ≥ 1`. -/
def decW' : Tensor3 := ⟨1, 2, 1, fun _ t _ => if t = 0 then 0 else 5⟩

/-- Target tensor for the masking witness. -/
def tgtW : Tensor3 := ⟨1, 2, 1, fun _ _ _ => 3⟩

theorem C1_masked_reconstruction_losses_witness :
    (∀ b t m, t < [1].getD b 0 → decW.val b t m = decW'.val b t m) ∧
      MelReconLoss.forward "mae" [1] tgtW decW none =
        MelReconLoss.forward "mae" [1] tgtW decW' none := by
  have h : ∀ b t m, t < [1].getD b 0 → decW.val b t m = decW'.val b t m := by
    intro b t m ht
    match b with
    | 0 =>
        have : t = 0 := Nat.lt_one_iff.mp ht
        simp [decW, decW', this]
    | b + 1 => simp [List.getD] at ht
  exact ⟨h, C1_masked_reconstruction_losses.1 "mae" [1] tgtW decW decW' none h⟩

/-- Mean of a list of rationals: `tensor.mean()` / `F.*_loss(...)` reductions
on a flattened tensor. -/
def qmean (l : List ℚ) : ℚ :=
  l.sum / l.length

/-- State of a constructed `GeneratorAdversarialLoss` module. -/
structure GeneratorAdversarialLoss where
  average_by_discriminators : Bool
  loss_type : String

/-- Embedding of `GeneratorAdversarialLoss.__init__`: the `assert` rejects
every `loss_type` other than `"mse"` and `"hinge"`. -/
def GeneratorAdversarialLoss.init (average_by_discriminators : Bool)
    (loss_type : String) : Except String GeneratorAdversarialLoss :=
  if loss_type = "mse" ∨ loss_type = "hinge" then
    Except.ok ⟨average_by_discriminators, loss_type⟩
  else Except.error (loss_type ++ " is not supported.")

/-- The criterion selected in `GeneratorAdversarialLoss.__init__`:
`_mse_loss x = F.mse_loss(x, ones)` (mean of `(v - 1)^2`) for `"mse"`, and
`_hinge_loss x = -x.mean()` otherwise. -/
def GeneratorAdversarialLoss.criterion (g : GeneratorAdversarialLoss)
    (x : List ℚ) : ℚ :=
  if g.loss_type = "mse" then qmean (x.map fun v => (v - 1) ^ 2)
  else -(qmean x)

/-- Argument of `GeneratorAdversarialLoss.forward`: a single discriminator
output tensor (flattened) or a list of them. -/
inductive GenAdvInput where
  | tensor (x : List ℚ)
  | list (xs : List (List ℚ))

/-- Embedding of `GeneratorAdversarialLoss.forward`.  The loop accumulates
`adv_loss += criterion(outputs_)` starting from `0.0` and then divides by
`i + 1`, the number of loop iterations; on an empty list with averaging
enabled the loop variable `i` is never bound and the division raises a
`NameError`, rendered as `none`. -/
def GeneratorAdversarialLoss.forward (g : GeneratorAdversarialLoss) :
    GenAdvInput → Option ℚ
  | .tensor x => some (g.criterion x)
  | .list xs =>
      let adv_loss := xs.foldl (fun acc x_ => acc + g.criterion x_) 0
      if g.average_by_discriminators then
        match xs.length with
        | 0 => none
        | n + 1 => some (adv_loss / (n + 1))
      else some adv_loss

/-- State of a constructed `DiscriminatorAdversarialLoss` module. -/
structure DiscriminatorAdversarialLoss where
  average_by_discriminators : Bool
  loss_type : String

/-- Embedding of `DiscriminatorAdversarialLoss.__init__`: the `assert`
rejects every `loss_type` other than `"mse"` and `"hinge"`. -/
def DiscriminatorAdversarialLoss.init (average_by_discriminators : Bool)
    (loss_type : String) : Except String DiscriminatorAdversarialLoss :=
  if loss_type = "mse" ∨ loss_type = "hinge" then
    Except.ok ⟨average_by_discriminators, loss_type⟩
  else Except.error (loss_type ++ " is not supported.")

/-- Criterion for the groundtruth branch: `_mse_real_loss x = F.mse_loss(x, ones)`
for `"mse"`, `_hinge_real_loss x = -mean(min(x - 1, 0))` otherwise. -/
def DiscriminatorAdversarialLoss.real_criterion
    (d : DiscriminatorAdversarialLoss) (x : List ℚ) : ℚ :=
  if d.loss_type = "mse" then qmean (x.map fun v => (v - 1) ^ 2)
  else -(qmean (x.map fun v => min (v - 1) 0))

/-- Criterion for the generated branch: `_mse_fake_loss x = F.mse_loss(x, zeros)`
for `"mse"`, `_hinge_fake_loss x = -mean(min(-x - 1, 0))` otherwise. -/
def DiscriminatorAdversarialLoss.fake_criterion
    (d : DiscriminatorAdversarialLoss) (x : List ℚ) : ℚ :=
  if d.loss_type = "mse" then qmean (x.map fun v => v ^ 2)
  else -(qmean (x.map fun v => min (-v - 1) 0))

/-- An element of a discriminator-output list: either a plain output tensor
or a tuple including feature maps, whose last element is the output tensor. -/
inductive DiscOut where
  | plain (x : List ℚ)
  | withFeats (xs : List (List ℚ))

/-- Extraction performed at the top of each loop iteration of
`DiscriminatorAdversarialLoss.forward`: the code inspects only the
generated-branch element `outputs_hat_`, and when it is a tuple/list replaces
BOTH elements of the pair by their last entry (`[-1]`).  A mixed pair makes
the code step outside this model's tensor domain: a tuple paired with a plain
groundtruth tensor indexes that tensor (`outputs_[-1]` is a tensor slice,
inexpressible here), and a plain generated tensor paired with a tuple feeds
the raw Python list to the criterion, which raises `TypeError`.  Both mixed
cases are therefore `none`. -/
def dpairExtract : DiscOut × DiscOut → Option (List ℚ × List ℚ)
  | (.plain xh, .plain x) => some (xh, x)
  | (.withFeats hs, .withFeats os) => some (hs.getLastD [], os.getLastD [])
  | (.withFeats _, .plain _) => none
  | (.plain _, .withFeats _) => none

/-- The per-pair extraction applied along the zipped output lists; `none` as
soon as one pair leaves the modelled domain. -/
def extractPairs : List (DiscOut × DiscOut) → Option (List (List ℚ × List ℚ))
  | [] => some []
  | p :: rest =>
      match dpairExtract p, extractPairs rest with
      | some q, some qs => some (q :: qs)
      | _, _ => none

/-- Argument of `DiscriminatorAdversarialLoss.forward`: a single tensor or a
list of discriminator outputs. -/
inductive DiscAdvInput where
  | tensor (x : List ℚ)
  | list (xs : List DiscOut)

/-- Embedding of `DiscriminatorAdversarialLoss.forward`.  The loop runs over
`zip(outputs_hat, outputs)`, first applying the `[-1]` replacement gated on
the generated-branch element, then accumulating `real_criterion(outputs_)`
and `fake_criterion(outputs_hat_)`; with averaging enabled both sums are
divided by `i + 1`, the number of iterations, and on an empty zip the
unbound loop variable raises a `NameError` (`none`).  Passing a list on one
side and a plain tensor on the other is outside the modelled domain (the
framework rejects it), rendered `none`. -/
def DiscriminatorAdversarialLoss.forward (d : DiscriminatorAdversarialLoss) :
    DiscAdvInput → DiscAdvInput → Option (ℚ × ℚ)
  | .tensor xh, .tensor x => some (d.real_criterion x, d.fake_criterion xh)
  | .list hs, .list os =>
      match extractPairs (hs.zip os) with
      | none => none
      | some pairs =>
          let real_loss := pairs.foldl (fun acc p => acc + d.real_criterion p.2) 0
          let fake_loss := pairs.foldl (fun acc p => acc + d.fake_criterion p.1) 0
          if d.average_by_discriminators then
            match pairs.length with
            | 0 => none
            | n + 1 => some (real_loss / (n + 1), fake_loss / (n + 1))
          else some (real_loss, fake_loss)
  | _, _ => none

lemma extractPairs_length :
    ∀ {l : List (DiscOut × DiscOut)} {l' : List (List ℚ × List ℚ)},
      extractPairs l = some l' → l'.length = l.length := by
  intro l
  induction l with
  | nil =>
      intro l' h
      simp only [extractPairs, Option.some.injEq] at h
      subst h
      rfl
  | cons p rest ih =>
      intro l' h
      simp only [extractPairs] at h
      cases hq : dpairExtract p with
      | none => rw [hq] at h; simp at h
      | some q =>
          rw [hq] at h
          cases hr : extractPairs rest with
          | none => rw [hr] at h; simp at h
          | some qs =>
              rw [hr] at h
              simp only [Option.some.injEq] at h
              subst h
              simp [ih hr]

/-- Mean absolute error `F.l1_loss` of two flattened same-shape tensors. -/
def l1_loss (a b : List ℚ) : ℚ :=
  qmean ((a.zip b).map fun p => |p.1 - p.2|)

/-- Embedding of the outer loop of `FeatureMatchLoss.forward`, one list
element per discriminator.  The inner-loop variable `j` survives between
outer iterations in Python, so the state carries the last bound value of `j`
(`none` while unbound): a discriminator with an empty layer zip divides by
the stale `j + 1`, and raises a `NameError` (`none`) if `j` was never bound
and layer averaging is on. -/
def fmGo (average_by_layers : Bool) :
    List (List (List ℚ) × List (List ℚ)) → Option ℕ → ℚ → Option ℚ
  | [], _, acc => some acc
  | (hs, os) :: rest, jstate, acc =>
      let pairs := hs.zip os
      let s := (pairs.map fun p => l1_loss p.1 p.2).sum
      let j' := match pairs.length with
        | 0 => jstate
        | n + 1 => some n
      if average_by_layers then
        match j' with
        | none => none
        | some j => fmGo average_by_layers rest j' (acc + s / (j + 1))
      else fmGo average_by_layers rest j' (acc + s)

/-- Embedding of `FeatureMatchLoss.forward`: sums the per-discriminator
(layer-averaged) L1 feature distances over `zip(feats_hat, feats)`, then
divides by the number of discriminators when `average_by_discriminators`;
an empty outer zip with that flag raises a `NameError` (`none`). -/
def FeatureMatchLoss.forward (average_by_layers average_by_discriminators : Bool)
    (feats_hat feats : List (List (List ℚ))) : Option ℚ :=
  match fmGo average_by_layers (feats_hat.zip feats) none 0 with
  | none => none
  | some total =>
      if average_by_discriminators then
        match (feats_hat.zip feats).length with
        | 0 => none
        | n + 1 => some (total / (n + 1))
      else some total

lemma foldl_add_eq_sum (f : α → ℚ) (l : List α) (a : ℚ) :
    l.foldl (fun acc x => acc + f x) a = a + (l.map f).sum := by
  induction l generalizing a with
  | nil => simp
  | cons x xs ih => simp [ih, add_assoc]

lemma sum_sq_list_eq_zero_iff (l : List ℚ) :
    ((l.map fun v => (v - 1) ^ 2).sum = 0 ↔ ∀ v ∈ l, v = 1) := by
  induction l with
  | nil => simp
  | cons x xs ih =>
      simp only [List.map_cons, List.sum_cons, List.mem_cons]
      constructor
      · intro h
        have hx : (0 : ℚ) ≤ (x - 1) ^ 2 := sq_nonneg _
        have hxs : (0 : ℚ) ≤ (xs.map fun v => (v - 1) ^ 2).sum := by
          apply List.sum_nonneg
          intro y hy
          obtain ⟨v, _, rfl⟩ := List.mem_map.mp hy
          exact sq_nonneg _
        have h1 : (x - 1) ^ 2 = 0 := le_antisymm (by linarith) hx
        have h2 : (xs.map fun v => (v - 1) ^ 2).sum = 0 :=
          le_antisymm (by linarith) hxs
        have hx1 : x = 1 := by
          have := pow_eq_zero_iff (n := 2) (by norm_num) |>.mp h1
          linarith [sub_eq_zero.mp this]
        exact fun v hv => hv.elim (fun h => h ▸ hx1) (ih.mp h2 v)
      · intro h
        have hx1 : x = 1 := h x (Or.inl rfl)
        have h2 : (xs.map fun v => (v - 1) ^ 2).sum = 0 :=
          ih.mpr fun v hv => h v (Or.inr hv)
        simp [hx1, h2]

/-- C2: `GeneratorAdversarialLoss.forward` on a single tensor returns the mean
squared distance of the outputs to all-ones for `loss_type = "mse"` (zero
exactly when every output equals `1`) and the negated mean for `"hinge"`;
on a non-empty list it returns the sum of the per-discriminator criterion
values, divided by the number of discriminators exactly when
`average_by_discriminators` is set. -/
theorem C2_generator_adversarial_loss :
    (∀ (g : GeneratorAdversarialLoss) (x : List ℚ), g.loss_type = "mse" →
        g.forward (.tensor x) = some (qmean (x.map fun v => (v - 1) ^ 2))
      ∧ (x ≠ [] → (g.criterion x = 0 ↔ ∀ v ∈ x, v = 1)))
  ∧ (∀ (g : GeneratorAdversarialLoss) (x : List ℚ), g.loss_type = "hinge" →
        g.forward (.tensor x) = some (-(qmean x)))
  ∧ (∀ (g : GeneratorAdversarialLoss) (xs : List (List ℚ)), xs ≠ [] →
        g.forward (.list xs) =
          some (if g.average_by_discriminators
                then (xs.map g.criterion).sum / xs.length
                else (xs.map g.criterion).sum)) := by
  refine ⟨?_, ?_, ?_⟩
  · intro g x hlt
    constructor
    · simp [GeneratorAdversarialLoss.forward, GeneratorAdversarialLoss.criterion, hlt]
    · intro hx
      have hlen : (0 : ℚ) < x.length := by
        have : x.length ≠ 0 := fun h => hx (List.length_eq_zero.mp h)
        exact_mod_cast Nat.pos_of_ne_zero this
      simp only [GeneratorAdversarialLoss.criterion, hlt, eq_self_iff_true, if_true, qmean]
      rw [div_eq_zero_iff]
      simp only [List.length_map]
      constructor
      · intro h
        rcases h with h | h
        · exact (sum_sq_list_eq_zero_iff x).mp h
        · exact absurd h (ne_of_gt hlen)
      · intro h
        exact Or.inl ((sum_sq_list_eq_zero_iff x).mpr h)
  · intro g x hlt
    have : g.loss_type ≠ "mse" := by simp [hlt]
    simp [GeneratorAdversarialLoss.forward, GeneratorAdversarialLoss.criterion, this]
  · intro g xs hxs
    simp only [GeneratorAdversarialLoss.forward]
    rw [foldl_add_eq_sum, zero_add]
    cases hl : xs.length with
    | zero => exact absurd (List.length_eq_zero.mp hl) hxs
    | succ n =>
        by_cases havg : g.average_by_discriminators
        · simp [havg, hl]
        · simp [havg, hl]

theorem C2_generator_adversarial_loss_witness :
    ([[2], [4]] : List (List ℚ)) ≠ [] ∧
      (GeneratorAdversarialLoss.mk true "mse").forward (.list [[2], [4]]) =
        some (if (GeneratorAdversarialLoss.mk true "mse").average_by_discriminators
              then (([[2], [4]] : List (List ℚ)).map
                  (GeneratorAdversarialLoss.mk true "mse").criterion).sum / 2
              else (([[2], [4]] : List (List ℚ)).map
                  (GeneratorAdversarialLoss.mk true "mse").criterion).sum) := by
  have h : ([[2], [4]] : List (List ℚ)) ≠ [] := by simp
  exact ⟨h, C2_generator_adversarial_loss.2.2 (GeneratorAdversarialLoss.mk true "mse")
    [[2], [4]] h⟩

/-- C3: `DiscriminatorAdversarialLoss.forward` returns the pair
`(real_loss, fake_loss)`: for `"mse"` the mean squared distances of the
groundtruth outputs to all-ones and of the generated outputs to all-zeros,
for `"hinge"` `-mean(min(x-1,0))` resp. `-mean(min(-x-1,0))`; list elements
contribute through the last entry of each nested tuple, and both sums are
divided by the number of discriminators exactly when
`average_by_discriminators` is set. -/
theorem C3_discriminator_adversarial_loss :
    (∀ (d : DiscriminatorAdversarialLoss) (xh x : List ℚ),
        d.forward (.tensor xh) (.tensor x) =
          some (d.real_criterion x, d.fake_criterion xh))
  ∧ (∀ (d : DiscriminatorAdversarialLoss) (x : List ℚ), d.loss_type = "mse" →
        d.real_criterion x = qmean (x.map fun v => (v - 1) ^ 2)
      ∧ d.fake_criterion x = qmean (x.map fun v => (v - 0) ^ 2))
  ∧ (∀ (d : DiscriminatorAdversarialLoss) (x : List ℚ), d.loss_type = "hinge" →
        d.real_criterion x = -(qmean (x.map fun v => min (v - 1) 0))
      ∧ d.fake_criterion x = -(qmean (x.map fun v => min (-v - 1) 0)))
  ∧ (∀ (hs' os' : List (List ℚ)),
        dpairExtract (.withFeats hs', .withFeats os') =
          some (hs'.getLastD [], os'.getLastD []))
  ∧ (∀ (d : DiscriminatorAdversarialLoss) (hs os : List DiscOut)
       (pairs : List (List ℚ × List ℚ)),
        hs ≠ [] → hs.length = os.length →
        extractPairs (hs.zip os) = some pairs →
        d.forward (.list hs) (.list os) =
          some (if d.average_by_discriminators
                then ((pairs.map fun p => d.real_criterion p.2).sum / os.length,
                      (pairs.map fun p => d.fake_criterion p.1).sum / os.length)
                else ((pairs.map fun p => d.real_criterion p.2).sum,
                      (pairs.map fun p => d.fake_criterion p.1).sum))) := by
  refine ⟨?_, ?_, ?_, ?_, ?_⟩
  · intro d xh x
    rfl
  · intro d x hlt
    constructor
    · simp [DiscriminatorAdversarialLoss.real_criterion, hlt]
    · simp [DiscriminatorAdversarialLoss.fake_criterion, hlt]
  · intro d x hlt
    have : d.loss_type ≠ "mse" := by simp [hlt]
    constructor
    · simp [DiscriminatorAdversarialLoss.real_criterion, this]
    · simp [DiscriminatorAdversarialLoss.fake_criterion, this]
  · intro hs' os'
    rfl
  · intro d hs os pairs hne hlen hext
    simp only [DiscriminatorAdversarialLoss.forward, hext]
    rw [foldl_add_eq_sum, foldl_add_eq_sum, zero_add, zero_add]
    have hpl : pairs.length = os.length := by
      rw [extractPairs_length hext, List.length_zip, hlen, Nat.min_self]
    cases hl : pairs.length with
    | zero =>
        rw [hpl, ← hlen] at hl
        exact absurd (List.length_eq_zero.mp hl) hne
    | succ n =>
        have hos : os.length = n + 1 := by rw [← hpl, hl]
        by_cases havg : d.average_by_discriminators
        · simp [havg, hl, hos]
        · simp [havg, hl]

theorem C3_discriminator_adversarial_loss_witness :
    ([DiscOut.withFeats [[1], [2]]] : List DiscOut) ≠ [] ∧
      ([DiscOut.withFeats [[1], [2]]] : List DiscOut).length =
        ([DiscOut.withFeats [[3], [4]]] : List DiscOut).length ∧
      extractPairs ([DiscOut.withFeats [[1], [2]]].zip [DiscOut.withFeats [[3], [4]]]) =
        some [([2], [4])] ∧
      (DiscriminatorAdversarialLoss.mk true "hinge").forward
          (.list [DiscOut.withFeats [[1], [2]]]) (.list [DiscOut.withFeats [[3], [4]]]) =
        some (if (DiscriminatorAdversarialLoss.mk true "hinge").average_by_discriminators
              then ((([([2], [4])] : List (List ℚ × List ℚ)).map fun p =>
                      (DiscriminatorAdversarialLoss.mk true "hinge").real_criterion p.2).sum / 1,
                    (([([2], [4])] : List (List ℚ × List ℚ)).map fun p =>
                      (DiscriminatorAdversarialLoss.mk true "hinge").fake_criterion p.1).sum / 1)
              else ((([([2], [4])] : List (List ℚ × List ℚ)).map fun p =>
                      (DiscriminatorAdversarialLoss.mk true "hinge").real_criterion p.2).sum,
                    (([([2], [4])] : List (List ℚ × List ℚ)).map fun p =>
                      (DiscriminatorAdversarialLoss.mk true "hinge").fake_criterion p.1).sum)) := by
  have h1 : ([DiscOut.withFeats [[1], [2]]] : List DiscOut) ≠ [] := by simp
  have h2 : ([DiscOut.withFeats [[1], [2]]] : List DiscOut).length =
      ([DiscOut.withFeats [[3], [4]]] : List DiscOut).length := rfl
  have h3 : extractPairs
      ([DiscOut.withFeats [[1], [2]]].zip [DiscOut.withFeats [[3], [4]]]) =
        some [([2], [4])] := rfl
  exact ⟨h1, h2, h3, C3_discriminator_adversarial_loss.2.2.2.2
    (DiscriminatorAdversarialLoss.mk true "hinge") _ _ _ h1 h2 h3⟩

/-- C8: both adversarial loss constructors succeed exactly on the loss types
`"mse"` and `"hinge"`; every other `loss_type` fails the constructor
assertion. -/
theorem C8_adversarial_loss_type_assertion :
    ∀ (avg : Bool) (lt : String),
      ((∃ g, GeneratorAdversarialLoss.init avg lt = Except.ok g) ↔
        lt = "mse" ∨ lt = "hinge")
    ∧ ((∃ d, DiscriminatorAdversarialLoss.init avg lt = Except.ok d) ↔
        lt = "mse" ∨ lt = "hinge") := by
  intro avg lt
  constructor
  · unfold GeneratorAdversarialLoss.init
    by_cases h : lt = "mse" ∨ lt = "hinge"
    · simp [h]
    · simp [h]
  · unfold DiscriminatorAdversarialLoss.init
    by_cases h : lt = "mse" ∨ lt = "hinge"
    · simp [h]
    · simp [h]

/-- C9: on an empty list of discriminator outputs, each of the three
list-consuming losses fails with an unbound loop variable (`NameError`,
rendered `none`) when its `average_by_discriminators` flag is set, and
returns the float `0.0` (resp. the pair `(0.0, 0.0)`) when it is not. -/
theorem C9_empty_discriminator_outputs :
    (∀ lt : String,
        (GeneratorAdversarialLoss.mk true lt).forward (.list []) = none
      ∧ (GeneratorAdversarialLoss.mk false lt).forward (.list []) = some 0)
  ∧ (∀ lt : String,
        (DiscriminatorAdversarialLoss.mk true lt).forward (.list []) (.list []) = none
      ∧ (DiscriminatorAdversarialLoss.mk false lt).forward (.list []) (.list []) =
          some (0, 0))
  ∧ (∀ al : Bool,
        FeatureMatchLoss.forward al true [] [] = none
      ∧ FeatureMatchLoss.forward al false [] [] = some 0) := by
  refine ⟨fun lt => ⟨rfl, rfl⟩, fun lt => ⟨rfl, rfl⟩, fun al => ⟨?_, ?_⟩⟩
  · simp [FeatureMatchLoss.forward, fmGo]
  · simp [FeatureMatchLoss.forward, fmGo]

/-- Pointwise difference of two magnitude tensors (shape from the first). -/
def tsub3 (a b : Tensor3) : Tensor3 :=
  ⟨a.d0, a.d1, a.d2, fun i j k => a.val i j k - b.val i j k⟩

/-- Pointwise map over a rank-3 tensor. -/
def tmap3 (f : ℚ → ℚ) (a : Tensor3) : Tensor3 :=
  ⟨a.d0, a.d1, a.d2, fun i j k => f (a.val i j k)⟩

/-- Frobenius norm `torch.norm(m, p="fro")`: the square root (the parameter
`sqrtf` stands for the framework's square root) of the sum of squared
entries. -/
def frobNorm (sqrtf : ℚ → ℚ) (m : Tensor3) : ℚ :=
  sqrtf (∑ i ∈ Finset.range m.d0, ∑ j ∈ Finset.range m.d1, ∑ k ∈ Finset.range m.d2,
    (m.val i j k) ^ 2)

/-- Mean absolute difference `F.l1_loss` of two same-shape rank-3 tensors. -/
def l1_loss3 (a b : Tensor3) : ℚ :=
  (∑ i ∈ Finset.range a.d0, ∑ j ∈ Finset.range a.d1, ∑ k ∈ Finset.range a.d2,
    |a.val i j k - b.val i j k|) / ((a.d0 : ℚ) * (a.d1 : ℚ) * (a.d2 : ℚ))

/-- Embedding of `SpectralConvergenceLoss.forward`:
`norm(y_mag - x_mag, "fro") / norm(y_mag, "fro")`. -/
def SpectralConvergenceLoss.forward (sqrtf : ℚ → ℚ) (x_mag y_mag : Tensor3) : ℚ :=
  frobNorm sqrtf (tsub3 y_mag x_mag) / frobNorm sqrtf y_mag

/-- Embedding of `LogSTFTMagnitudeLoss.forward`:
`F.l1_loss(log(y_mag), log(x_mag))`, with `logf` standing for `torch.log`. -/
def LogSTFTMagnitudeLoss.forward (logf : ℚ → ℚ) (x_mag y_mag : Tensor3) : ℚ :=
  l1_loss3 (tmap3 logf y_mag) (tmap3 logf x_mag)

/-- Embedding of `STFTLoss.forward`.  `stftF` stands for the external STFT
magnitude kernel `kantts.utils.audio_torch.stft` (not among the sources; the
spec says only that it computes magnitude spectrograms), applied to
`(fft_size, shift_size, win_length)` — the window tensor is a function of
`win_length` and the window name fixed at construction — and a `(B, T)`
signal. -/
def STFTLoss.forward (stftF : ℕ → ℕ → ℕ → Tensor2 → Tensor3) (logf sqrtf : ℚ → ℚ)
    (fft_size shift_size win_length : ℕ) (x y : Tensor2) : ℚ × ℚ :=
  let x_mag := stftF fft_size shift_size win_length x
  let y_mag := stftF fft_size shift_size win_length y
  (SpectralConvergenceLoss.forward sqrtf x_mag y_mag,
   LogSTFTMagnitudeLoss.forward logf x_mag y_mag)

/-- Argument of `MultiResolutionSTFTLoss.forward`: a `(B, T)` signal or a
`(B, C, T)` multi-band signal. -/
inductive Signal where
  | two (t : Tensor2)
  | three (t : Tensor3)

/-- The `view(-1, size(2))` reshape `(B, C, T) -> (B x C, T)` of a rank-3
tensor, row-major. -/
def Tensor3.view2 (t : Tensor3) : Tensor2 :=
  ⟨t.d0 * t.d1, t.d2, fun i j => t.val (i / t.d1) (i % t.d1) j⟩

/-- Embedding of `MultiResolutionSTFTLoss.__init__`: the assertion requires
the three parameter lists to have equal length, and the module list zips them
into one `STFTLoss` configuration per resolution. -/
def MultiResolutionSTFTLoss.init (fft_sizes hop_sizes win_lengths : List ℕ) :
    Option (List (ℕ × ℕ × ℕ)) :=
  if fft_sizes.length = hop_sizes.length ∧ hop_sizes.length = win_lengths.length then
    some (List.zipWith3 (fun a b c => (a, b, c)) fft_sizes hop_sizes win_lengths)
  else none

/-- The loop of `MultiResolutionSTFTLoss.forward` after any reshape: fold the
per-resolution `STFTLoss` results into running `sc_loss` / `mag_loss` sums
and divide both by `len(self.stft_losses)`. -/
def MultiResolutionSTFTLoss.lossOn (stftF : ℕ → ℕ → ℕ → Tensor2 → Tensor3)
    (logf sqrtf : ℚ → ℚ) (stft_losses : List (ℕ × ℕ × ℕ)) (x2 y2 : Tensor2) : ℚ × ℚ :=
  let acc := stft_losses.foldl (fun acc cfg =>
      let r := STFTLoss.forward stftF logf sqrtf cfg.1 cfg.2.1 cfg.2.2 x2 y2
      (acc.1 + r.1, acc.2 + r.2)) (0, 0)
  (acc.1 / (stft_losses.length : ℚ), acc.2 / (stft_losses.length : ℚ))

/-- Embedding of `MultiResolutionSTFTLoss.forward`.  The reshape is gated on
`len(x.shape) == 3` and then applied to BOTH signals; a 3-D `x` with a 2-D
`y` raises `IndexError` at `y.size(2)`, and a 2-D `x` with a 3-D `y` passes
the unreshaped 3-D `y` to the 2-D STFT kernel — both mixed-rank calls are
outside the modelled domain, rendered `none`. -/
def MultiResolutionSTFTLoss.forward (stftF : ℕ → ℕ → ℕ → Tensor2 → Tensor3)
    (logf sqrtf : ℚ → ℚ) (stft_losses : List (ℕ × ℕ × ℕ)) (x y : Signal) :
    Option (ℚ × ℚ) :=
  match x, y with
  | .two x2, .two y2 =>
      some (MultiResolutionSTFTLoss.lossOn stftF logf sqrtf stft_losses x2 y2)
  | .three x3, .three y3 =>
      some (MultiResolutionSTFTLoss.lossOn stftF logf sqrtf stft_losses
        x3.view2 y3.view2)
  | .three _, .two _ => none
  | .two _, .three _ => none

lemma foldl_pair_add_eq_sum (f g : α → ℚ) (l : List α) (p : ℚ × ℚ) :
    l.foldl (fun acc c => (acc.1 + f c, acc.2 + g c)) p =
      (p.1 + (l.map f).sum, p.2 + (l.map g).sum) := by
  induction l generalizing p with
  | nil => simp
  | cons x xs ih => simp [ih, add_assoc]

lemma lossOn_eq_mean (stftF : ℕ → ℕ → ℕ → Tensor2 → Tensor3) (logf sqrtf : ℚ → ℚ)
    (cfgs : List (ℕ × ℕ × ℕ)) (a b : Tensor2) :
    MultiResolutionSTFTLoss.lossOn stftF logf sqrtf cfgs a b =
      ((cfgs.map fun c => SpectralConvergenceLoss.forward sqrtf
          (stftF c.1 c.2.1 c.2.2 a) (stftF c.1 c.2.1 c.2.2 b)).sum / (cfgs.length : ℚ),
       (cfgs.map fun c => LogSTFTMagnitudeLoss.forward logf
          (stftF c.1 c.2.1 c.2.2 a) (stftF c.1 c.2.1 c.2.2 b)).sum / (cfgs.length : ℚ)) := by
  simp only [MultiResolutionSTFTLoss.lossOn]
  rw [foldl_pair_add_eq_sum
    (fun c : ℕ × ℕ × ℕ => (STFTLoss.forward stftF logf sqrtf c.1 c.2.1 c.2.2 a b).1)
    (fun c : ℕ × ℕ × ℕ => (STFTLoss.forward stftF logf sqrtf c.1 c.2.1 c.2.2 a b).2)
    cfgs (0, 0)]
  simp [STFTLoss.forward]

/-- C4: under the constructor precondition that the three parameter lists
have equal, non-zero length, `MultiResolutionSTFTLoss.forward` returns the
arithmetic mean over the configured resolutions of the spectral convergence
losses and of the log STFT magnitude losses of the two signals' STFT
magnitude spectrograms, for every STFT kernel, logarithm and square root;
a 3-D `(B, C, T)` input pair is processed exactly as its `(B x C, T)`
reshapes. -/
theorem C4_multi_resolution_stft_loss :
    ∀ (stftF : ℕ → ℕ → ℕ → Tensor2 → Tensor3) (logf sqrtf : ℚ → ℚ)
      (fft_sizes hop_sizes win_lengths : List ℕ) (cfgs : List (ℕ × ℕ × ℕ))
      (x2 y2 : Tensor2) (x3 y3 : Tensor3),
      MultiResolutionSTFTLoss.init fft_sizes hop_sizes win_lengths = some cfgs →
      cfgs ≠ [] →
      (MultiResolutionSTFTLoss.forward stftF logf sqrtf cfgs (.two x2) (.two y2) =
        some ((cfgs.map fun c => SpectralConvergenceLoss.forward sqrtf
            (stftF c.1 c.2.1 c.2.2 x2) (stftF c.1 c.2.1 c.2.2 y2)).sum / (cfgs.length : ℚ),
          (cfgs.map fun c => LogSTFTMagnitudeLoss.forward logf
            (stftF c.1 c.2.1 c.2.2 x2) (stftF c.1 c.2.1 c.2.2 y2)).sum / (cfgs.length : ℚ)))
    ∧ (MultiResolutionSTFTLoss.forward stftF logf sqrtf cfgs (.three x3) (.three y3) =
        some ((cfgs.map fun c => SpectralConvergenceLoss.forward sqrtf
            (stftF c.1 c.2.1 c.2.2 x3.view2) (stftF c.1 c.2.1 c.2.2 y3.view2)).sum
              / (cfgs.length : ℚ),
          (cfgs.map fun c => LogSTFTMagnitudeLoss.forward logf
            (stftF c.1 c.2.1 c.2.2 x3.view2) (stftF c.1 c.2.1 c.2.2 y3.view2)).sum
              / (cfgs.length : ℚ)))
    ∧ (MultiResolutionSTFTLoss.forward stftF logf sqrtf cfgs (.three x3) (.three y3) =
        MultiResolutionSTFTLoss.forward stftF logf sqrtf cfgs
          (.two x3.view2) (.two y3.view2)) := by
  intro stftF logf sqrtf fft_sizes hop_sizes win_lengths cfgs x2 y2 x3 y3 hinit hne
  refine ⟨?_, ?_, rfl⟩
  · simp only [MultiResolutionSTFTLoss.forward]
    rw [lossOn_eq_mean]
  · simp only [MultiResolutionSTFTLoss.forward]
    rw [lossOn_eq_mean]

/-- STFT magnitude kernel used by the C4 witness. -/
def stftW : ℕ → ℕ → ℕ → Tensor2 → Tensor3 :=
  fun a b c _ => ⟨1, 1, 1, fun _ _ _ => (a + b + c : ℚ)⟩

/-- Predicted signal of the C4 witness. -/
def xW : Tensor2 := ⟨1, 2, fun _ _ => 1⟩

/-- Groundtruth signal of the C4 witness. -/
def yW : Tensor2 := ⟨1, 2, fun _ _ => 2⟩

theorem C4_multi_resolution_stft_loss_witness :
    MultiResolutionSTFTLoss.init [4] [2] [3] = some [(4, 2, 3)] ∧
      ([(4, 2, 3)] : List (ℕ × ℕ × ℕ)) ≠ [] ∧
      MultiResolutionSTFTLoss.forward stftW id id [(4, 2, 3)] (.two xW) (.two yW) =
        some ((([(4, 2, 3)].map fun c => SpectralConvergenceLoss.forward id
            (stftW c.1 c.2.1 c.2.2 xW) (stftW c.1 c.2.1 c.2.2 yW)).sum
              / (([(4, 2, 3)] : List (ℕ × ℕ × ℕ)).length : ℚ),
          ([(4, 2, 3)].map fun c => LogSTFTMagnitudeLoss.forward id
            (stftW c.1 c.2.1 c.2.2 xW) (stftW c.1 c.2.1 c.2.2 yW)).sum
              / (([(4, 2, 3)] : List (ℕ × ℕ × ℕ)).length : ℚ))) := by
  have h1 : MultiResolutionSTFTLoss.init [4] [2] [3] = some [(4, 2, 3)] := rfl
  have h2 : ([(4, 2, 3)] : List (ℕ × ℕ × ℕ)) ≠ [] := by simp
  exact ⟨h1, h2, (C4_multi_resolution_stft_loss stftW id id [4] [2] [3] [(4, 2, 3)]
    xW yW ⟨0, 0, 0, fun _ _ _ => 0⟩ ⟨0, 0, 0, fun _ _ _ => 0⟩ h1 h2).1⟩

/-- Constructor keyword arguments, embedded as an association list of numeric
settings (sufficient for dispatch-level reasoning). -/
def Params : Type := List (String × ℚ)

/-- One value of `config["Loss"]`: the mandatory `enable` flag and the
optional `params` and `weights` entries read with `.get`. -/
structure LossCfg where
  enable : Bool
  params : Option Params
  weights : Option ℚ

/-- A loss module as assembled by `criterion_builder`: the loss class it
instantiates (tagged by class name), the keyword arguments passed to the
constructor, and the `weights` attribute set afterwards. -/
structure Crit where
  cls : String
  params : Params
  weights : ℚ

/-- Embedding of the module-level `loss_dict`, mapping config keys to loss
class names. -/
def loss_dict : List (String × String) :=
  [("generator_adv_loss", "GeneratorAdversarialLoss"),
   ("discriminator_adv_loss", "DiscriminatorAdversarialLoss"),
   ("stft_loss", "MultiResolutionSTFTLoss"),
   ("mel_loss", "MelSpectrogramLoss"),
   ("subband_stft_loss", "MultiResolutionSTFTLoss"),
   ("feat_match_loss", "FeatureMatchLoss"),
   ("MelReconLoss", "MelReconLoss"),
   ("ProsodyReconLoss", "ProsodyReconLoss")]

/-- Embedding of `criterion_builder`, iterating over the items of
`config["Loss"]` (a Python dict, so keys are distinct and iteration follows
insertion order).  A key absent from `loss_dict` raises
`NotImplementedError`; an enabled known key is instantiated from
`value.get("params", {})` and given a `weights` attribute
`value.get("weights", 1.0)`.  Device placement (`.to(device)`) does not
affect the result and is omitted. -/
def criterion_builder : List (String × LossCfg) → Except String (List (String × Crit))
  | [] => Except.ok []
  | (key, value) :: rest =>
      match loss_dict.lookup key with
      | none => Except.error (key ++ " is not implemented")
      | some cls =>
          match criterion_builder rest with
          | Except.error e => Except.error e
          | Except.ok m =>
              Except.ok (if value.enable then
                (key, ⟨cls, value.params.getD [], value.weights.getD 1⟩) :: m
              else m)

/-- C5: `criterion_builder` raises `NotImplementedError` exactly when some
key of `config["Loss"]` is absent from `loss_dict`; when all keys are
present, it returns the dictionary whose keys are exactly the enabled keys,
each mapped to an instance of the corresponding loss class constructed from
`value.get("params", {})` and carrying a `weights` attribute defaulting to
`1.0`. -/
theorem C5_criterion_builder :
    ∀ cfg : List (String × LossCfg),
      ((∃ e, criterion_builder cfg = Except.error e) ↔
        ∃ p ∈ cfg, loss_dict.lookup p.1 = none)
    ∧ ((∀ p ∈ cfg, (loss_dict.lookup p.1).isSome) →
        criterion_builder cfg =
          Except.ok ((cfg.filter fun p => p.2.enable).map fun p =>
            (p.1, ⟨(loss_dict.lookup p.1).getD "", p.2.params.getD [],
                   p.2.weights.getD 1⟩))) := by
  intro cfg
  induction cfg with
  | nil =>
      constructor
      · constructor
        · rintro ⟨e, he⟩
          simp [criterion_builder] at he
        · rintro ⟨p, hp, _⟩
          simp at hp
      · intro _
        rfl
  | cons kv rest ih =>
      obtain ⟨key, value⟩ := kv
      constructor
      · constructor
        · rintro ⟨e, he⟩
          simp only [criterion_builder] at he
          cases hk : loss_dict.lookup key with
          | none => exact ⟨(key, value), List.mem_cons_self _ _, hk⟩
          | some cls =>
              rw [hk] at he
              cases hr : criterion_builder rest with
              | error e' =>
                  obtain ⟨p, hp, hpn⟩ := ih.1.mp ⟨e', hr⟩
                  exact ⟨p, List.mem_cons_of_mem _ hp, hpn⟩
              | ok m => rw [hr] at he; exact absurd he (by simp)
        · rintro ⟨p, hp, hpn⟩
          rcases List.mem_cons.mp hp with heq | hmem
          · subst heq
            exact ⟨key ++ " is not implemented", by simp [criterion_builder, hpn]⟩
          · obtain ⟨e', he'⟩ := ih.1.mpr ⟨p, hmem, hpn⟩
            simp only [criterion_builder]
            cases hk : loss_dict.lookup key with
            | none => exact ⟨key ++ " is not implemented", rfl⟩
            | some cls => exact ⟨e', by rw [he']⟩
      · intro hall
        have hk : (loss_dict.lookup key).isSome :=
          hall (key, value) (List.mem_cons_self _ _)
        obtain ⟨cls, hcls⟩ := Option.isSome_iff_exists.mp hk
        have hrest := ih.2 fun p hp => hall p (List.mem_cons_of_mem _ hp)
        simp only [criterion_builder, hcls, hrest]
        by_cases hen : value.enable
        · simp [hen, hcls]
        · simp [hen]

theorem C5_criterion_builder_witness :
    (∀ p ∈ ([("mel_loss", ⟨true, none, none⟩),
             ("stft_loss", ⟨false, none, some 2⟩)] : List (String × LossCfg)),
        (loss_dict.lookup p.1).isSome) ∧
      criterion_builder
          [("mel_loss", ⟨true, none, none⟩), ("stft_loss", ⟨false, none, some 2⟩)] =
        Except.ok ((([("mel_loss", (⟨true, none, none⟩ : LossCfg)),
              ("stft_loss", ⟨false, none, some 2⟩)].filter fun p => p.2.enable).map fun p =>
            (p.1, ⟨(loss_dict.lookup p.1).getD "", p.2.params.getD [],
                   p.2.weights.getD 1⟩))) := by
  have h : ∀ p ∈ ([("mel_loss", ⟨true, none, none⟩),
             ("stft_loss", ⟨false, none, some 2⟩)] : List (String × LossCfg)),
      (loss_dict.lookup p.1).isSome := by
    intro p hp
    rcases List.mem_cons.mp hp with rfl | hp'
    · rfl
    · rcases List.mem_cons.mp hp' with rfl | hp''
      · rfl
      · simp at hp''
  exact ⟨h, (C5_criterion_builder _).2 h⟩

/-- Optional `type` / `params` entries of a model's `optimizer` or
`scheduler` configuration block, read with `.get`. -/
structure OSCfg where
  typ : Option String
  params : Option Params

/-- One value of `config["Model"]`: constructor parameters plus optimizer and
scheduler blocks. -/
structure MCfg where
  params : Params
  optimizer : OSCfg
  scheduler : OSCfg

/-- The configuration consumed by the model factory: `model_type`, the
`Model` dictionary (an association list with distinct keys, in insertion
order), and `config.get("pqmf", {})`. -/
structure TopConfig where
  model_type : String
  modelEntries : List (String × MCfg)
  pqmf_cfg : Params

/-- Modelled from the spec: `torch.optim` optimizer classes live in the
framework, so an instantiated optimizer is recorded as the resolved class
name together with the model parameters handle and keyword arguments it was
constructed with ("instantiating ... by name lookup"). -/
structure Optimizer where
  cls : String
  model_params : String
  params : Params

/-- Embedding of `optimizer_builder`: resolve `opt_name` in `torch.optim` and
instantiate with the model parameters and `opt_params`. -/
def optimizer_builder (model_params : String) (opt_name : String)
    (opt_params : Params) : Optimizer :=
  ⟨opt_name, model_params, opt_params⟩

/-- Modelled from the spec: scheduler classes live in
`kantts.train.scheduler`, which is not among the sources; an instantiated
scheduler is recorded as the resolved class name, the optimizer it wraps and
its keyword arguments. -/
structure Scheduler where
  cls : String
  optimizer : Optimizer
  params : Params

/-- Embedding of `scheduler_builder`: resolve `sche_name` in
`kantts.train.scheduler` and instantiate with the optimizer and
`sche_params`. -/
def scheduler_builder (optimizer : Optimizer) (sche_name : String)
    (sche_params : Params) : Scheduler :=
  ⟨sche_name, optimizer, sche_params⟩

/-- A model placed on the device: the class it instantiates (for
discriminators, the class is looked up by the entry's own name via
`globals()`), its constructor parameters, and whether it was wrapped in
`DistributedDataParallel`. -/
structure MEntry where
  cls : String
  params : Params
  ddp : Bool

/-- The `model["pqmf"]` entry: `PQMF(subbands=out_channels, **config.get("pqmf", {}))`.
It is never passed to `DistributedDataParallel`, which the flag records. -/
structure PQMFEntry where
  subbands : ℚ
  cfg : Params
  ddp : Bool

/-- The `(model, optimizer, scheduler)` triple of dictionaries returned by
`hifigan_model_builder`, flattened into one record: the generator entry, the
`model["discriminator"]` sub-dictionary, the optional `model["pqmf"]`, and
the corresponding optimizer and scheduler dictionaries. -/
structure HGBuilt where
  generator : MEntry
  discriminators : List (String × MEntry)
  pqmf : Option PQMFEntry
  genOpt : Optimizer
  discOpts : List (String × Optimizer)
  genSch : Scheduler
  discSchs : List (String × Scheduler)

/-- The non-`"Generator"` entries of `config["Model"]`, in iteration order:
these populate the `discriminator` sub-dictionaries. -/
def discEntries (config : TopConfig) : List (String × MCfg) :=
  config.modelEntries.filter fun p => p.1 ≠ "Generator"

/-- Embedding of `hifigan_model_builder`.  The loop over `config["Model"]`
builds the generator (from the unique `"Generator"` key) and one
discriminator per other key, each with an optimizer whose type defaults to
`"Adam"` and a scheduler whose type defaults to `"StepLR"`; then
`config["Model"]["Generator"]["params"]["out_channels"]` is read (a missing
key raises `KeyError`), a PQMF model is added exactly when it exceeds `1`,
and with `distributed` set the generator and the discriminators — but not the
PQMF model — are wrapped in `DistributedDataParallel`. -/
def hifigan_model_builder (config : TopConfig) (distributed : Bool) :
    Except String HGBuilt :=
  match config.modelEntries.lookup "Generator" with
  | none => Except.error "KeyError: Generator"
  | some gmc =>
      match gmc.params.lookup "out_channels" with
      | none => Except.error "KeyError: out_channels"
      | some out_channels =>
          let genOpt := optimizer_builder "generator"
            (gmc.optimizer.typ.getD "Adam") (gmc.optimizer.params.getD [])
          Except.ok
            ⟨⟨"Generator", gmc.params, distributed⟩,
             (discEntries config).map fun p => (p.1, ⟨p.1, p.2.params, distributed⟩),
             if 1 < out_channels then some ⟨out_channels, config.pqmf_cfg, false⟩ else none,
             genOpt,
             (discEntries config).map fun p =>
               (p.1, optimizer_builder p.1
                 (p.2.optimizer.typ.getD "Adam") (p.2.optimizer.params.getD [])),
             scheduler_builder genOpt
               (gmc.scheduler.typ.getD "StepLR") (gmc.scheduler.params.getD []),
             (discEntries config).map fun p =>
               (p.1, scheduler_builder
                 (optimizer_builder p.1
                   (p.2.optimizer.typ.getD "Adam") (p.2.optimizer.params.getD []))
                 (p.2.scheduler.typ.getD "StepLR") (p.2.scheduler.params.getD []))⟩

/-- The `(model, optimizer, scheduler)` triple returned by
`sambert_model_builder`, flattened into one record. -/
structure SBBuilt where
  model : MEntry
  opt : Optimizer
  sch : Scheduler

/-- Embedding of `sambert_model_builder`: builds the single `KanTtsSAMBERT`
model (wrapped in `DistributedDataParallel` when `distributed`) with its
optimizer (type defaulting to `"Adam"`) and scheduler (type defaulting to
`"StepLR"`); a missing `"KanTtsSAMBERT"` key raises `KeyError`. -/
def sambert_model_builder (config : TopConfig) (distributed : Bool) :
    Except String SBBuilt :=
  match config.modelEntries.lookup "KanTtsSAMBERT" with
  | none => Except.error "KeyError: KanTtsSAMBERT"
  | some mc =>
      let opt := optimizer_builder "KanTtsSAMBERT"
        (mc.optimizer.typ.getD "Adam") (mc.optimizer.params.getD [])
      Except.ok
        ⟨⟨"KanTtsSAMBERT", mc.params, distributed⟩,
         opt,
         scheduler_builder opt
           (mc.scheduler.typ.getD "StepLR") (mc.scheduler.params.getD [])⟩

/-- Result of `model_builder`, tagged by which builder produced it. -/
inductive BuildResult where
  | hifigan (r : HGBuilt)
  | sambert (r : SBBuilt)

/-- Embedding of the module-level `model_dict`, mapping `model_type` values
to builder functions. -/
def model_dict : List (String × (TopConfig → Bool → Except String BuildResult)) :=
  [("hifigan", fun c d => (hifigan_model_builder c d).map BuildResult.hifigan),
   ("sambert", fun c d => (sambert_model_builder c d).map BuildResult.sambert)]

/-- Embedding of `model_builder`: `model_dict[config["model_type"]]` raises
`KeyError` for an unknown type before any builder runs, and otherwise the
chosen builder's triple is returned unchanged. -/
def model_builder (config : TopConfig) (distributed : Bool) :
    Except String BuildResult :=
  match model_dict.lookup config.model_type with
  | some f => f config distributed
  | none => Except.error ("KeyError: " ++ config.model_type)

/-- C6: `model_builder` dispatches on `config["model_type"]`: `"hifigan"` and
`"sambert"` return the corresponding builder's `(model, optimizer,
scheduler)` triple unchanged, and every other value fails with a key-lookup
error (no builder is invoked). -/
theorem C6_model_builder_dispatch :
    ∀ (config : TopConfig) (distributed : Bool),
      (config.model_type = "hifigan" →
        model_builder config distributed =
          (hifigan_model_builder config distributed).map BuildResult.hifigan)
    ∧ (config.model_type = "sambert" →
        model_builder config distributed =
          (sambert_model_builder config distributed).map BuildResult.sambert)
    ∧ (config.model_type ≠ "hifigan" → config.model_type ≠ "sambert" →
        model_builder config distributed =
          Except.error ("KeyError: " ++ config.model_type)) := by
  intro config distributed
  refine ⟨?_, ?_, ?_⟩
  · intro h
    simp [model_builder, model_dict, List.lookup, h]
  · intro h
    simp [model_builder, model_dict, List.lookup, h]
  · intro h1 h2
    have hb1 : (config.model_type == "hifigan") = false := by
      simpa using h1
    have hb2 : (config.model_type == "sambert") = false := by
      simpa using h2
    simp [model_builder, model_dict, List.lookup, hb1, hb2]

/-- Configuration used by the factory witnesses. -/
def cfgW : TopConfig :=
  ⟨"hifigan",
   [("Generator", ⟨[("out_channels", 4)], ⟨none, none⟩, ⟨some "StepLR", none⟩⟩),
    ("MultiScaleDiscriminator", ⟨[], ⟨some "AdamW", some [("lr", 1)]⟩, ⟨none, none⟩⟩)],
   [("taps", 62)]⟩

theorem C6_model_builder_dispatch_witness :
    cfgW.model_type = "hifigan" ∧
      model_builder cfgW false =
        (hifigan_model_builder cfgW false).map BuildResult.hifigan := by
  exact ⟨rfl, (C6_model_builder_dispatch cfgW false).1 rfl⟩

/-- C7: optimizers and schedulers are instantiated by name lookup —
`optimizer_builder` records exactly the resolved `opt_name` applied to the
model parameters and `opt_params`, `scheduler_builder` the resolved
`sche_name` applied to the optimizer and `sche_params` — and whenever a model
entry's config omits the optimizer or scheduler `type`, the hifigan and
sambert builders pass `"Adam"` resp. `"StepLR"`. -/
theorem C7_name_lookup_and_defaults :
    (∀ (mp n : String) (p : Params), optimizer_builder mp n p = ⟨n, mp, p⟩)
  ∧ (∀ (o : Optimizer) (n : String) (p : Params),
      scheduler_builder o n p = ⟨n, o, p⟩)
  ∧ (∀ (config : TopConfig) (distributed : Bool) (r : HGBuilt),
      hifigan_model_builder config distributed = Except.ok r →
      ∀ gmc, config.modelEntries.lookup "Generator" = some gmc →
        (r.genOpt = optimizer_builder "generator"
            (gmc.optimizer.typ.getD "Adam") (gmc.optimizer.params.getD [])
        ∧ r.genSch = scheduler_builder r.genOpt
            (gmc.scheduler.typ.getD "StepLR") (gmc.scheduler.params.getD []))
        ∧ (gmc.optimizer.typ = none → r.genOpt.cls = "Adam")
        ∧ (gmc.scheduler.typ = none → r.genSch.cls = "StepLR")
        ∧ r.discOpts = ((discEntries config).map fun p =>
            (p.1, optimizer_builder p.1
              (p.2.optimizer.typ.getD "Adam") (p.2.optimizer.params.getD [])))
        ∧ r.discSchs = ((discEntries config).map fun p =>
            (p.1, scheduler_builder
              (optimizer_builder p.1
                (p.2.optimizer.typ.getD "Adam") (p.2.optimizer.params.getD []))
              (p.2.scheduler.typ.getD "StepLR") (p.2.scheduler.params.getD []))))
  ∧ (∀ (config : TopConfig) (distributed : Bool) (r : SBBuilt),
      sambert_model_builder config distributed = Except.ok r →
      ∀ mc, config.modelEntries.lookup "KanTtsSAMBERT" = some mc →
        r.opt = optimizer_builder "KanTtsSAMBERT"
            (mc.optimizer.typ.getD "Adam") (mc.optimizer.params.getD [])
        ∧ r.sch = scheduler_builder r.opt
            (mc.scheduler.typ.getD "StepLR") (mc.scheduler.params.getD [])
        ∧ (mc.optimizer.typ = none → r.opt.cls = "Adam")
        ∧ (mc.scheduler.typ = none → r.sch.cls = "StepLR")) := by
  refine ⟨fun _ _ _ => rfl, fun _ _ _ => rfl, ?_, ?_⟩
  · intro config distributed r hok gmc hg
    cases hoc : gmc.params.lookup "out_channels" with
    | none =>
        simp only [hifigan_model_builder, hg, hoc] at hok
        exact absurd hok (by simp)
    | some oc =>
        simp only [hifigan_model_builder, hg, hoc, Except.ok.injEq] at hok
        subst hok
        refine ⟨⟨rfl, rfl⟩, ?_, ?_, rfl, rfl⟩
        · intro h
          simp [optimizer_builder, h]
        · intro h
          simp [scheduler_builder, h]
  · intro config distributed r hok mc hm
    simp only [sambert_model_builder, hm, Except.ok.injEq] at hok
    subst hok
    refine ⟨rfl, rfl, ?_, ?_⟩
    · intro h
      simp [optimizer_builder, h]
    · intro h
      simp [scheduler_builder, h]

/-- The `"Generator"` entry of `cfgW`. -/
def gmcW : MCfg :=
  ⟨[("out_channels", 4)], ⟨none, none⟩, ⟨some "StepLR", none⟩⟩

/-- The result of `hifigan_model_builder` on `cfgW` without distribution. -/
def hgW : HGBuilt :=
  ⟨⟨"Generator", [("out_channels", 4)], false⟩,
   [("MultiScaleDiscriminator", ⟨"MultiScaleDiscriminator", [], false⟩)],
   some ⟨4, [("taps", 62)], false⟩,
   ⟨"Adam", "generator", []⟩,
   [("MultiScaleDiscriminator", ⟨"AdamW", "MultiScaleDiscriminator", [("lr", 1)]⟩)],
   ⟨"StepLR", ⟨"Adam", "generator", []⟩, []⟩,
   [("MultiScaleDiscriminator",
     ⟨"StepLR", ⟨"AdamW", "MultiScaleDiscriminator", [("lr", 1)]⟩, []⟩)]⟩

theorem C7_name_lookup_and_defaults_witness :
    hifigan_model_builder cfgW false = Except.ok hgW ∧
      cfgW.modelEntries.lookup "Generator" = some gmcW ∧
      ((hgW.genOpt = optimizer_builder "generator"
          (gmcW.optimizer.typ.getD "Adam") (gmcW.optimizer.params.getD [])
        ∧ hgW.genSch = scheduler_builder hgW.genOpt
          (gmcW.scheduler.typ.getD "StepLR") (gmcW.scheduler.params.getD []))
       ∧ (gmcW.optimizer.typ = none → hgW.genOpt.cls = "Adam")
       ∧ (gmcW.scheduler.typ = none → hgW.genSch.cls = "StepLR")
       ∧ hgW.discOpts = ((discEntries cfgW).map fun p =>
           (p.1, optimizer_builder p.1
             (p.2.optimizer.typ.getD "Adam") (p.2.optimizer.params.getD [])))
       ∧ hgW.discSchs = ((discEntries cfgW).map fun p =>
           (p.1, scheduler_builder
             (optimizer_builder p.1
               (p.2.optimizer.typ.getD "Adam") (p.2.optimizer.params.getD []))
             (p.2.scheduler.typ.getD "StepLR") (p.2.scheduler.params.getD [])))) := by
  exact ⟨rfl, rfl,
    C7_name_lookup_and_defaults.2.2.1 cfgW false hgW rfl gmcW rfl⟩

/-- C10: whenever `hifigan_model_builder` succeeds, the returned model
dictionary contains a `"pqmf"` entry exactly when the generator's
`out_channels` exceeds `1`; the entry is built with `subbands = out_channels`
and `config.get("pqmf", {})`, and it is never wrapped in
`DistributedDataParallel`, whatever the `distributed` flag. -/
theorem C10_pqmf_entry_condition :
    ∀ (config : TopConfig) (distributed : Bool) (r : HGBuilt),
      hifigan_model_builder config distributed = Except.ok r →
      ∀ (gmc : MCfg) (oc : ℚ), config.modelEntries.lookup "Generator" = some gmc →
        gmc.params.lookup "out_channels" = some oc →
        (r.pqmf.isSome ↔ 1 < oc)
      ∧ (∀ pq, r.pqmf = some pq →
          pq.ddp = false ∧ pq.subbands = oc ∧ pq.cfg = config.pqmf_cfg) := by
  intro config distributed r hok gmc oc hg hoc
  simp only [hifigan_model_builder, hg, hoc, Except.ok.injEq] at hok
  subst hok
  constructor
  · by_cases h : 1 < oc <;> simp [h]
  · intro pq hpq
    by_cases h : 1 < oc
    · simp only [h, if_true, Option.some.injEq] at hpq
      subst hpq
      exact ⟨rfl, rfl, rfl⟩
    · simp [h] at hpq

theorem C10_pqmf_entry_condition_witness :
    hifigan_model_builder cfgW true = Except.ok
        (⟨⟨"Generator", [("out_channels", 4)], true⟩,
          [("MultiScaleDiscriminator", ⟨"MultiScaleDiscriminator", [], true⟩)],
          some ⟨4, [("taps", 62)], false⟩,
          ⟨"Adam", "generator", []⟩,
          [("MultiScaleDiscriminator", ⟨"AdamW", "MultiScaleDiscriminator", [("lr", 1)]⟩)],
          ⟨"StepLR", ⟨"Adam", "generator", []⟩, []⟩,
          [("MultiScaleDiscriminator",
            ⟨"StepLR", ⟨"AdamW", "MultiScaleDiscriminator", [("lr", 1)]⟩, []⟩)]⟩ : HGBuilt) ∧
      cfgW.modelEntries.lookup "Generator" = some gmcW ∧
      gmcW.params.lookup "out_channels" = some 4 ∧
      (((⟨⟨"Generator", [("out_channels", 4)], true⟩,
          [("MultiScaleDiscriminator", ⟨"MultiScaleDiscriminator", [], true⟩)],
          some ⟨4, [("taps", 62)], false⟩,
          ⟨"Adam", "generator", []⟩,
          [("MultiScaleDiscriminator", ⟨"AdamW", "MultiScaleDiscriminator", [("lr", 1)]⟩)],
          ⟨"StepLR", ⟨"Adam", "generator", []⟩, []⟩,
          [("MultiScaleDiscriminator",
            ⟨"StepLR", ⟨"AdamW", "MultiScaleDiscriminator", [("lr", 1)]⟩, []⟩)]⟩ : HGBuilt).pqmf.isSome
          ↔ (1 : ℚ) < 4)
       ∧ (∀ pq, (⟨⟨"Generator", [("out_channels", 4)], true⟩,
          [("MultiScaleDiscriminator", ⟨"MultiScaleDiscriminator", [], true⟩)],
          some ⟨4, [("taps", 62)], false⟩,
          ⟨"Adam", "generator", []⟩,
          [("MultiScaleDiscriminator", ⟨"AdamW", "MultiScaleDiscriminator", [("lr", 1)]⟩)],
          ⟨"StepLR", ⟨"Adam", "generator", []⟩, []⟩,
          [("MultiScaleDiscriminator",
            ⟨"StepLR", ⟨"AdamW", "MultiScaleDiscriminator", [("lr", 1)]⟩, []⟩)]⟩ : HGBuilt).pqmf
            = some pq →
          pq.ddp = false ∧ pq.subbands = 4 ∧ pq.cfg = cfgW.pqmf_cfg)) := by
  refine ⟨?_, rfl, ?_, ?_⟩
  · rfl
  · rfl
  · exact C10_pqmf_entry_condition cfgW true _ rfl gmcW 4 rfl rfl

end KanTTS
